import Mathlib

/-!
Verification of the data-retention shredding engine and the questions-view
save logic. The shredder module itself is not among the provided sources
(only its test suite is), so the shredder definitions below are modelled
from the specification; the `BaseQuestionsViewMixin.save` embedding follows
`src/pretix/base/views/mixins.py` directly.
-/

/-- A structured log/JSON payload: the shape of `LogEntry.data`,
`Order.payment_info` and export file contents. -/
inductive JSON where
  | null
  | bool (b : Bool)
  | num (n : Int)
  | str (s : String)
  | arr (elems : List JSON)
  | obj (fields : List (String × JSON))
deriving Repr

/-- The fixed redaction marker substituted for destroyed content. -/
def redactMarker : String := "█"

/-- Python-style truthiness of a structured value. -/
def truthy : JSON → Bool
  | .null => false
  | .bool b => b
  | .num n => n != 0
  | .str s => !(s == "")
  | .arr xs => !xs.isEmpty
  | .obj fs => !fs.isEmpty

/-- First value bound to a key in an object's field list (Python dict lookup). -/
def getField : List (String × JSON) → String → Option JSON
  | [], _ => Option.none
  | (k', v') :: fs, k => if k' = k then some v' else getField fs k

/-- Python dict assignment `d[k] = v`: replace the first binding of `k`,
or append the binding if the key is absent. -/
def setField : List (String × JSON) → String → JSON → List (String × JSON)
  | [], k, v => [(k, v)]
  | (k', v') :: fs, k, v => if k' = k then (k, v) :: fs else (k', v') :: setField fs k v

/-- Does the character list contain the needle as a contiguous sublist? -/
def charsContain (needle : List Char) : List Char → Bool
  | [] => needle.isEmpty
  | c :: rest => needle.isPrefixOf (c :: rest) || charsContain needle rest

/-- Substring test on strings, via the underlying character lists. -/
def strContainsStr (s needle : String) : Bool :=
  charsContain needle.toList s.toList

mutual
/-- Does any string (key or value) inside the payload contain the character? -/
def jsonHasChar (c : Char) : JSON → Bool
  | .str s => s.toList.contains c
  | .arr xs => jsonHasCharArr c xs
  | .obj fs => jsonHasCharObj c fs
  | _ => false
def jsonHasCharArr (c : Char) : List JSON → Bool
  | [] => false
  | x :: xs => jsonHasChar c x || jsonHasCharArr c xs
def jsonHasCharObj (c : Char) : List (String × JSON) → Bool
  | [] => false
  | (k, v) :: fs => k.toList.contains c || jsonHasChar c v || jsonHasCharObj c fs
end

mutual
/-- Does any string value inside the payload contain the needle as a substring? -/
def jsonValueContains (needle : String) : JSON → Bool
  | .str s => strContainsStr s needle
  | .arr xs => jsonValueContainsArr needle xs
  | .obj fs => jsonValueContainsObj needle fs
  | _ => false
def jsonValueContainsArr (needle : String) : List JSON → Bool
  | [] => false
  | x :: xs => jsonValueContains needle x || jsonValueContainsArr needle xs
def jsonValueContainsObj (needle : String) : List (String × JSON) → Bool
  | [] => false
  | (_, v) :: fs => jsonValueContains needle v || jsonValueContainsObj needle fs
end

/-- Is the payload's top level an object (a mapping)? -/
def JSON.isObj : JSON → Bool
  | .obj _ => true
  | _ => false

/-- Is the payload's top level an array (a sequence)? -/
def JSON.isArr : JSON → Bool
  | .arr _ => true
  | _ => false

/-! ## Eligibility gate (`shred_constraints`) -/

/-- A sub-period (sub-event) of a multi-occurrence event. -/
structure SubEventM where
  date_from : Int
  date_to : Option Int

/-- Event lifecycle state relevant to the eligibility gate. -/
structure EventM where
  live : Bool
  has_subevents : Bool
  date_from : Int
  date_to : Option Int
  subevents : List SubEventM

/-- The 60-day grace window, in seconds. -/
def sixtyDays : Int := 60 * 86400

/-- Relevant end timestamps of an event: for a multi-sub-period event each
sub-period's end (its `date_to`, falling back to `date_from`), otherwise the
event's own end with the same fallback. -/
def relevantEnds (e : EventM) : List Int :=
  if e.has_subevents then e.subevents.map (fun s => s.date_to.getD s.date_from)
  else [e.date_to.getD e.date_from]

/-- Modelled from the spec: `shred_constraints(event)` (the Eligibility Gate of
`pretix/base/shredder.py`, which is not among the provided sources). Returns a
human-readable blocking reason unless shredding is permitted: any relevant end
timestamp still inside the 60-day grace window blocks, and a live shop blocks. -/
def shred_constraints (now : Int) (e : EventM) : Option String :=
  if (relevantEnds e).any (fun d => d > now - sixtyDays) then
    some "Your event needs to be over for at least 60 days to use this feature."
  else if e.live then
    some "Your ticket shop needs to be offline to use this feature."
  else
    Option.none

/-! ## Event data model for the shredders -/

/-- An order: public code, contact email, provider payment metadata. -/
structure OrderRec where
  code : String
  email : Option String
  payment_info : Option JSON

/-- An order position (one ticket/line item). -/
structure PositionRec where
  orderCode : String
  positionid : Int
  attendee_name : Option String
  attendee_email : Option String

/-- The stable external identifier of a position: `"{order_code}-{position_id}"`. -/
def posKey (p : PositionRec) : String :=
  p.orderCode ++ "-" ++ toString p.positionid

/-- An invoice address record, one-to-one with an order. -/
structure AddressRec where
  orderCode : String
  addr : JSON

/-- A question answer for one position, with its optional owned file. -/
structure AnswerRec where
  posKey : String
  question : Int
  answer : String
  questionIdent : String
  options : List Int
  optionIdents : List String
  file : Option String

/-- A generated invoice with its free-text fields, line descriptions and
owned rendered file. -/
structure InvoiceRec where
  number : String
  introductory_text : String
  additional_text : String
  invoice_to : String
  payment_provider_text : String
  lineDescriptions : List String
  file : Option String

/-- A cached (combined) ticket artifact with its owned file. -/
structure TicketRec where
  key : String
  file : String

/-- A voucher: free-text comment plus its own log history. -/
structure VoucherRec where
  pk : Int
  comment : String
  logEntries : List JSON

/-- A waiting list entry with its optional owned voucher. -/
structure WLEntryRec where
  pk : Int
  item : Int
  variation : Option Int
  subevent : Option Int
  voucher : Option VoucherRec
  created : String
  locale : String
  email : Option String

/-- All records of one event that the shredders touch, plus the file storage
and the event's historical log entries. -/
structure EventDB where
  orders : List OrderRec
  positions : List PositionRec
  addresses : List AddressRec
  answers : List AnswerRec
  invoices : List InvoiceRec
  cachedTickets : List TicketRec
  cachedCombinedTickets : List TicketRec
  waitingList : List WLEntryRec
  storedFiles : List String
  logEntries : List JSON

/-- The event state with no records at all (base for concrete scenarios). -/
def emptyDB : EventDB :=
  { orders := [], positions := [], addresses := [], answers := [], invoices := [],
    cachedTickets := [], cachedCombinedTickets := [], waitingList := [],
    storedFiles := [], logEntries := [] }

/-- An export: a list of (filename, mime type, decoded JSON content), or
`Option.none` when the category has nothing exportable. -/
abbrev Files := List (String × String × JSON)

/-! ## Email address shredder -/

namespace EmailAddressShredder

mutual
/-- Modelled from the spec: the email shredder's rewrite of one log payload
(`pretix/base/shredder.py` is not among the provided sources). Logged email
contents are destroyed: every string value containing an `@` is replaced by
the redaction marker, so no address (nor the literal text around it) survives. -/
def shredLog : JSON → JSON
  | .str s => if s.toList.contains '@' then .str redactMarker else .str s
  | .arr xs => .arr (shredLogArr xs)
  | .obj fs => .obj (shredLogObj fs)
  | j => j
def shredLogArr : List JSON → List JSON
  | [] => []
  | x :: xs => shredLog x :: shredLogArr xs
def shredLogObj : List (String × JSON) → List (String × JSON)
  | [] => []
  | (k, v) :: fs => (k, shredLog v) :: shredLogObj fs
end

/-- Modelled from the spec: `EmailAddressShredder.generate_files`. File 0 maps
order codes to order emails, file 1 maps `"{order_code}-{position_id}"` keys
to attendee emails; orders/positions without an email are omitted. -/
def generate_files (db : EventDB) : Option Files :=
  some [("emails-by-order.json", "application/json",
          .obj ((db.orders.filter (fun o => o.email.isSome)).map
            (fun o => (o.code, .str (o.email.getD ""))))),
        ("emails-by-attendee.json", "application/json",
          .obj ((db.positions.filter (fun p => p.attendee_email.isSome)).map
            (fun p => (posKey p, .str (p.attendee_email.getD "")))))]

/-- Modelled from the spec: `EmailAddressShredder.shred_data`. Sets
`Order.email` and `OrderPosition.attendee_email` to null and destroys logged
email contents in every log payload of the event. -/
def shred_data (db : EventDB) : EventDB :=
  { db with
    orders := db.orders.map (fun o => { o with email := Option.none }),
    positions := db.positions.map (fun p => { p with attendee_email := Option.none }),
    logEntries := db.logEntries.map shredLog }

end EmailAddressShredder

/-! ## Attendee name shredder -/

namespace AttendeeNameShredder

mutual
/-- Modelled from the spec: the attendee-name shredder's structural log
rewrite: the value under any key literally named `attendee_name` is replaced
by the redaction marker, wherever it is nested; sibling keys are untouched. -/
def shredLog : JSON → JSON
  | .arr xs => .arr (shredLogArr xs)
  | .obj fs => .obj (shredLogObj fs)
  | j => j
def shredLogArr : List JSON → List JSON
  | [] => []
  | x :: xs => shredLog x :: shredLogArr xs
def shredLogObj : List (String × JSON) → List (String × JSON)
  | [] => []
  | (k, v) :: fs =>
    if k = "attendee_name" then (k, .str redactMarker) :: shredLogObj fs
    else (k, shredLog v) :: shredLogObj fs
end

/-- Modelled from the spec: `AttendeeNameShredder.generate_files`, one file
mapping `"{order_code}-{position_id}"` keys to attendee names. -/
def generate_files (db : EventDB) : Option Files :=
  some [("attendee-names.json", "application/json",
          .obj ((db.positions.filter (fun p => p.attendee_name.isSome)).map
            (fun p => (posKey p, .str (p.attendee_name.getD "")))))]

/-- Modelled from the spec: `AttendeeNameShredder.shred_data`. Nulls out every
position's attendee name and redacts `attendee_name` keys in log payloads. -/
def shred_data (db : EventDB) : EventDB :=
  { db with
    positions := db.positions.map (fun p => { p with attendee_name := Option.none }),
    logEntries := db.logEntries.map shredLog }

end AttendeeNameShredder

/-! ## Invoice address shredder -/

namespace InvoiceAddressShredder

/-- Modelled from the spec: redaction of one field value found under an
`invoice_data` key: boolean values and empty (falsy) values remain untouched,
every other value is replaced by the redaction marker. -/
def redactValue (v : JSON) : JSON :=
  match v with
  | .bool b => .bool b
  | v => if truthy v then .str redactMarker else v

/-- Applies `redactValue` to every field of the object found under an
`invoice_data` key; a non-object value there passes through unchanged. -/
def redactAddressObj : JSON → JSON
  | .obj fs => .obj (redactAddressFields fs)
  | v => v
where
  redactAddressFields : List (String × JSON) → List (String × JSON)
  | [] => []
  | (k, v) :: fs => (k, redactValue v) :: redactAddressFields fs

mutual
/-- Modelled from the spec: the invoice-address shredder's structural log
rewrite: every field value found under an `invoice_data` key is redacted via
`redactValue`; everything else is traversed unchanged. -/
def shredLog : JSON → JSON
  | .arr xs => .arr (shredLogArr xs)
  | .obj fs => .obj (shredLogObj fs)
  | j => j
def shredLogArr : List JSON → List JSON
  | [] => []
  | x :: xs => shredLog x :: shredLogArr xs
def shredLogObj : List (String × JSON) → List (String × JSON)
  | [] => []
  | (k, v) :: fs =>
    if k = "invoice_data" then (k, redactAddressObj v) :: shredLogObj fs
    else (k, shredLog v) :: shredLogObj fs
end

/-- Modelled from the spec: `InvoiceAddressShredder.generate_files`, one file
mapping order codes to the full address struct. -/
def generate_files (db : EventDB) : Option Files :=
  some [("invoice-addresses.json", "application/json",
          .obj (db.addresses.map (fun a => (a.orderCode, a.addr))))]

/-- Modelled from the spec: `InvoiceAddressShredder.shred_data`. Deletes every
Invoice Address record of the event and rewrites all log payloads with the
structural `invoice_data` redaction. -/
def shred_data (db : EventDB) : EventDB :=
  { db with
    addresses := [],
    logEntries := db.logEntries.map shredLog }

end InvoiceAddressShredder

/-! ## Question answer shredder -/

namespace QuestionAnswerShredder

/-- Does the key match the `question_<id>` pattern (a literal `question_`
followed by a numeric id)? -/
def isQuestionKey (k : String) : Bool :=
  "question_".toList.isPrefixOf k.toList && !(k.toList.drop 9).isEmpty
    && (k.toList.drop 9).all Char.isDigit

mutual
/-- Modelled from the spec: the question-answer shredder's structural log
rewrite: the entire value found under any key matching `question_<id>`
(whatever its structure) is replaced by the redaction marker; sibling keys
are traversed unchanged. -/
def shredLog : JSON → JSON
  | .arr xs => .arr (shredLogArr xs)
  | .obj fs => .obj (shredLogObj fs)
  | j => j
def shredLogArr : List JSON → List JSON
  | [] => []
  | x :: xs => shredLog x :: shredLogArr xs
def shredLogObj : List (String × JSON) → List (String × JSON)
  | [] => []
  | (k, v) :: fs =>
    if isQuestionKey k then (k, .str redactMarker) :: shredLogObj fs
    else (k, shredLog v) :: shredLogObj fs
end

/-- The export struct of one answer: question id, answer text, question
identifier, option ids and option identifiers. -/
def answerJSON (a : AnswerRec) : JSON :=
  .obj [("question", .num a.question),
        ("answer", .str a.answer),
        ("question_identifier", .str a.questionIdent),
        ("options", .arr (a.options.map (fun o => .num o))),
        ("option_identifiers", .arr (a.optionIdents.map (fun s => .str s)))]

/-- Modelled from the spec: `QuestionAnswerShredder.generate_files`, one file
mapping `"{order_code}-{position_id}"` keys to the list of answer structs of
that position. -/
def generate_files (db : EventDB) : Option Files :=
  some [("question-answers.json", "application/json",
          .obj (((db.answers.map (fun a => a.posKey)).dedup).map
            (fun k => (k, .arr ((db.answers.filter (fun a => a.posKey = k)).map answerJSON)))))]

/-- Modelled from the spec: `QuestionAnswerShredder.shred_data`. Physically
removes every answer's owned file from storage, deletes every Question Answer
record, and rewrites log payloads with the structural `question_<id>`
redaction. -/
def shred_data (db : EventDB) : EventDB :=
  { db with
    answers := [],
    storedFiles := db.storedFiles.filter
      (fun f => !(db.answers.any (fun a => a.file == some f))),
    logEntries := db.logEntries.map shredLog }

end QuestionAnswerShredder

/-! ## Invoice shredder -/

namespace InvoiceShredder

/-- Modelled from the spec: destruction of one invoice: the four free-text
fields and every line's description are blanked to the redaction marker and
the owned rendered file reference is dropped. -/
def shredInvoice (i : InvoiceRec) : InvoiceRec :=
  { i with
    introductory_text := redactMarker,
    additional_text := redactMarker,
    invoice_to := redactMarker,
    payment_provider_text := redactMarker,
    lineDescriptions := i.lineDescriptions.map (fun _ => redactMarker),
    file := Option.none }

/-- Modelled from the spec: `InvoiceShredder.generate_files`, one opaque
marker entry per invoice (existence only). -/
def generate_files (db : EventDB) : Option Files :=
  some [("invoices.json", "application/json",
          .obj (db.invoices.map (fun i => (i.number, .str redactMarker))))]

/-- Modelled from the spec: `InvoiceShredder.shred_data`. Blanks every
invoice's free text and line descriptions and deletes the owned rendered
files from storage. -/
def shred_data (db : EventDB) : EventDB :=
  { db with
    invoices := db.invoices.map shredInvoice,
    storedFiles := db.storedFiles.filter
      (fun f => !(db.invoices.any (fun i => i.file == some f))) }

end InvoiceShredder

/-! ## Cached ticket shredder -/

namespace CachedTicketShredder

/-- Modelled from the spec: `CachedTicketShredder.generate_files` returns
`Option.none` (pure caches: nothing to show the user, but still shred). -/
def generate_files (_ : EventDB) : Option Files := Option.none

/-- Modelled from the spec: `CachedTicketShredder.shred_data`. Deletes all
cached ticket and combined-ticket records and their owned files,
unconditionally. -/
def shred_data (db : EventDB) : EventDB :=
  { db with
    cachedTickets := [],
    cachedCombinedTickets := [],
    storedFiles := db.storedFiles.filter
      (fun f => !(db.cachedTickets.any (fun t => t.file == f))
             && !(db.cachedCombinedTickets.any (fun t => t.file == f))) }

end CachedTicketShredder

/-! ## Payment info shredder -/

namespace PaymentInfoShredder

/-- Modelled from the spec: destruction of one order's parsed payment
metadata: the `reference` and `payer` fields are replaced by the redaction
marker, other fields pass through unchanged, and a `_shredded: true` flag is
set (dict assignment, so re-running changes nothing further). -/
def shredPaymentInfo : JSON → JSON
  | .obj fs =>
      .obj (setField (setField (setField fs "reference" (.str redactMarker))
        "payer" (.str redactMarker)) "_shredded" (.bool true))
  | j => j

/-- Modelled from the spec: `PaymentInfoShredder.generate_files` returns
`Option.none` (opaque payment metadata: nothing to show, but still shred). -/
def generate_files (_ : EventDB) : Option Files := Option.none

/-- Modelled from the spec: `PaymentInfoShredder.shred_data`. Rewrites every
order's stored payment metadata via `shredPaymentInfo`. -/
def shred_data (db : EventDB) : EventDB :=
  { db with
    orders := db.orders.map
      (fun o => { o with payment_info := o.payment_info.map shredPaymentInfo }) }

end PaymentInfoShredder

/-! ## Waiting list shredder -/

namespace WaitingListShredder

/-- The export struct of one waiting list entry. -/
def entryJSON (w : WLEntryRec) : JSON :=
  .obj [("id", .num w.pk),
        ("item", .num w.item),
        ("variation", w.variation.elim .null (fun v => .num v)),
        ("subevent", w.subevent.elim .null (fun v => .num v)),
        ("voucher", w.voucher.elim .null (fun v => .num v.pk)),
        ("created", .str w.created),
        ("locale", .str w.locale),
        ("email", w.email.elim .null (fun e => .str e))]

/-- Modelled from the spec: redaction of a voucher created from a waiting
list entry: the free-text comment is replaced by the redaction marker and
every payload of the voucher's own log history has its logged email contents
destroyed (every string value containing an `@` becomes the marker). -/
def shredVoucher (v : VoucherRec) : VoucherRec :=
  { v with
    comment := redactMarker,
    logEntries := v.logEntries.map EmailAddressShredder.shredLog }

/-- Modelled from the spec: destruction of one waiting list entry: the email
is nulled and the associated voucher, when present, is redacted. -/
def shredEntry (w : WLEntryRec) : WLEntryRec :=
  { w with
    email := Option.none,
    voucher := w.voucher.map shredVoucher }

/-- Modelled from the spec: `WaitingListShredder.generate_files`, one file
whose top level is a sequence of entry structs (the only non-mapping export). -/
def generate_files (db : EventDB) : Option Files :=
  some [("waiting-list.json", "application/json",
          .arr (db.waitingList.map entryJSON))]

/-- Modelled from the spec: `WaitingListShredder.shred_data`. Destroys every
waiting list entry's email and redacts the associated vouchers. -/
def shred_data (db : EventDB) : EventDB :=
  { db with waitingList := db.waitingList.map shredEntry }

end WaitingListShredder

/-- The read-only export step run in the state-passing style of the engine:
`generate_files` performs only reads, so the state component it passes on is
the input state itself. -/
def runGenerate (g : EventDB → Option Files) (db : EventDB) : Option Files × EventDB :=
  (g db, db)

/-! ## `BaseQuestionsViewMixin.save` (from `src/pretix/base/views/mixins.py`) -/

/-- A cleaned form value as Python hands it to `save`: `None`, a boolean
(`False` clears a file field), a string, a name-parts dict, an uploaded file,
a selected question option (with its pk and answer text), or a list of
selected options. -/
inductive PyVal where
  | none
  | bool (b : Bool)
  | str (s : String)
  | nameParts (parts : List (String × String))
  | file (name : String)
  | opt (pk : Nat) (ans : String)
  | optList (os : List (Nat × String))
deriving DecidableEq, Repr

/-- Python truthiness of a cleaned form value. -/
def PyVal.truthy : PyVal → Bool
  | .none => false
  | .bool b => b
  | .str s => !(s == "")
  | .nameParts l => !l.isEmpty
  | .file _ => true
  | .opt _ _ => true
  | .optList os => !os.isEmpty

/-- Python `v == ''`. -/
def PyVal.isEmptyStr : PyVal → Bool
  | .str "" => true
  | _ => false

/-- Python `v is None`. -/
def PyVal.isNone : PyVal → Bool
  | .none => true
  | _ => false

/-- Python `v is False`. -/
def PyVal.isFalse : PyVal → Bool
  | .bool false => true
  | _ => false

/-- The JSON value stored when a cleaned value is written into
`meta_info['question_form_data']`. -/
def PyVal.toJSON : PyVal → JSON
  | .none => .null
  | .bool b => .bool b
  | .str s => .str s
  | .nameParts l => .obj (l.map (fun p => (p.1, .str p.2)))
  | .file n => .str n
  | .opt _ a => .str a
  | .optList os => .arr (os.map (fun o => .str o.2))

/-- The Django form field classes `save` distinguishes. -/
inductive FieldKind where
  | text
  | choice
  | multipleChoice
  | file
deriving DecidableEq, Repr

/-- A question answer object as `save` manipulates it: primary key (absent
before the first save), question id, answer text, selected option pks and the
stored file. -/
structure AnswerObj where
  pk : Option Nat
  question : Nat
  answer : String
  options : List Nat
  file : Option String
deriving DecidableEq, Repr

/-- One form field of a questions form: its class, its question and the
cached answer object when one already exists (`hasattr(field, 'answer')`). -/
structure FormField where
  kind : FieldKind
  question : Nat
  answer : Option AnswerObj
deriving DecidableEq, Repr

/-- The slice of a cart/order position that `save` mutates. -/
structure Position where
  attendee_name_parts : Option PyVal
  attendee_email : Option PyVal
  answers : List AnswerObj
  meta_info : String
deriving DecidableEq, Repr

/-- One questions form bound to its position: validation outcome, the cleaned
data items in iteration order, the form's fields and the position's parsed
`meta_info_data`. -/
structure Form where
  valid : Bool
  cleaned_data : List (String × PyVal)
  fields : List (String × FormField)
  pos : Position
  meta_info_data : JSON

mutual
/-- Compact JSON serialization, as `json.dumps` of the meta-info payload. -/
def jsonDump : JSON → String
  | .null => "null"
  | .bool b => if b then "true" else "false"
  | .num n => toString n
  | .str s => "\"" ++ s ++ "\""
  | .arr xs => "[" ++ jsonDumpArr xs ++ "]"
  | .obj fs => "\x7b" ++ jsonDumpObj fs ++ "\x7d"
def jsonDumpArr : List JSON → String
  | [] => ""
  | [x] => jsonDump x
  | x :: xs => jsonDump x ++ ", " ++ jsonDumpArr xs
def jsonDumpObj : List (String × JSON) → String
  | [] => ""
  | [(k, v)] => "\"" ++ k ++ "\": " ++ jsonDump v
  | (k, v) :: fs => "\"" ++ k ++ "\": " ++ jsonDump v ++ ", " ++ jsonDumpObj fs
end

/-- `form.fields[k]`. -/
def lookupField : List (String × FormField) → String → Option FormField
  | [], _ => Option.none
  | (k', f) :: fs, k => if k' = k then some f else lookupField fs k

/-- `answer.save()`: update the stored answer carrying the same pk, or append
the object when it is new. -/
def saveAnswer (l : List AnswerObj) (a : AnswerObj) : List AnswerObj :=
  match a.pk with
  | some p =>
      if l.any (fun x => x.pk == some p) then
        l.map (fun x => if x.pk == some p then a else x)
      else l ++ [a]
  | Option.none => l ++ [a]

/-- `answer.delete()` (the owned file, when present, is deleted with it). -/
def deleteAnswer (l : List AnswerObj) (a : AnswerObj) : List AnswerObj :=
  l.filter (fun x => !(x.pk == a.pk))

/-- `BaseQuestionsViewMixin._save_to_answer`: multiple-choice fields join the
options' texts and store the option pks, choice fields store the single
option, file fields store an uploaded file under a `file://` name, and every
other field stores the value as the answer text. -/
def save_to_answer (kind : FieldKind) (a : AnswerObj) (v : PyVal) : AnswerObj :=
  match kind, v with
  | .multipleChoice, .optList os =>
      { a with answer := String.intercalate ", " (os.map (fun o => o.2)),
               options := os.map (fun o => o.1) }
  | .multipleChoice, _ => a
  | .choice, .opt pk ans => { a with options := [pk], answer := ans }
  | .choice, _ => a
  | .file, .file n => { a with file := some n, answer := "file://" ++ n }
  | .file, _ => a
  | _, .str s => { a with answer := s }
  | _, _ => a

/-- `meta_info.setdefault('question_form_data', {})`. -/
def setdefaultQFD (meta : JSON) : JSON :=
  match meta with
  | .obj fs =>
      if (getField fs "question_form_data").isSome then .obj fs
      else .obj (fs ++ [("question_form_data", .obj [])])
  | j => j

/-- Rewrites the value under the `question_form_data` key of the meta-info
object. -/
def updateQFD (meta : JSON) (f : JSON → JSON) : JSON :=
  match meta with
  | .obj fs => .obj (fs.map (fun p => if p.1 = "question_form_data" then (p.1, f p.2) else p))
  | j => j

/-- `d[k] = v` on a JSON object. -/
def setKeyJ (j : JSON) (k : String) (v : JSON) : JSON :=
  match j with
  | .obj fs => .obj (setField fs k v)
  | j => j

/-- `del d[k]` (guarded by `k in d`) on a JSON object. -/
def delKeyJ (j : JSON) (k : String) : JSON :=
  match j with
  | .obj fs => .obj (fs.filter (fun p => !(p.1 == k)))
  | j => j

/-- One iteration of the `for k, v in form.cleaned_data.items()` loop of
`BaseQuestionsViewMixin.save`, acting on the position and on the meta-info
object read at the top of the outer loop. Cleaned-data keys always correspond
to form fields, so a missing field leaves the state unchanged. -/
def applyItem (fields : List (String × FormField)) (acc : Position × JSON)
    (kv : String × PyVal) : Position × JSON :=
  let pos := acc.1
  let meta := acc.2
  let k := kv.1
  let v := kv.2
  if k = "attendee_name_parts" then
    ({ pos with attendee_name_parts := if v.truthy then some v else Option.none }, meta)
  else if k = "attendee_email" then
    ({ pos with attendee_email := if v.isEmptyStr then Option.none else some v }, meta)
  else if "question_".toList.isPrefixOf k.toList && !v.isNone then
    match lookupField fields k with
    | some fld =>
        match fld.answer with
        | some cached =>
            if v.isEmptyStr || v.isNone || (fld.kind == FieldKind.file && v.isFalse) then
              ({ pos with answers := deleteAnswer pos.answers cached }, meta)
            else
              ({ pos with answers := saveAnswer pos.answers (save_to_answer fld.kind cached v) }, meta)
        | Option.none =>
            if !v.isEmptyStr then
              let fresh : AnswerObj :=
                { pk := Option.none, question := fld.question, answer := "",
                  options := [], file := Option.none }
              ({ pos with answers := saveAnswer pos.answers (save_to_answer fld.kind fresh v) }, meta)
            else (pos, meta)
    | Option.none => (pos, meta)
  else
    let meta := setdefaultQFD meta
    if v.isNone then
      (pos, updateQFD meta (fun q => delKeyJ q k))
    else
      (pos, updateQFD meta (fun q => setKeyJ q k v.toJSON))

/-- The meta-info object of one form after its body ran: the cleaned-data
loop only runs for a valid form; an invalid form's meta-info is re-serialized
as read. -/
def processMeta (f : Form) : JSON :=
  if f.valid then
    (f.cleaned_data.foldl (applyItem f.fields) (f.pos, f.meta_info_data)).2
  else f.meta_info_data

/-- The position of one form after its body of `save` ran: a valid form's
cleaned data is applied item by item; in every case the meta-info is
serialized and persisted on the position afterwards. -/
def processForm (f : Form) : Position :=
  let r :=
    if f.valid then f.cleaned_data.foldl (applyItem f.fields) (f.pos, f.meta_info_data)
    else (f.pos, f.meta_info_data)
  { r.1 with meta_info := jsonDump r.2 }

/-- `BaseQuestionsViewMixin.save`: iterates over all forms, accumulating the
`failed` flag and the persisted positions, and returns `not failed` together
with them. -/
def save (forms : List Form) : Bool × List Position :=
  let r := forms.foldl
    (fun (acc : Bool × List Position) f => (acc.1 || !f.valid, acc.2 ++ [processForm f]))
    (false, [])
  (!r.1, r.2)

/-! ## Scenario states used by the claims' witnesses -/

/-- A long-over but still-live event (365 days past, no end date set). -/
def eventLiveOld : EventM :=
  { live := true, has_subevents := false, date_from := -365 * 86400,
    date_to := Option.none, subevents := [] }

/-- A not-live single-period event that ended 62 days ago. -/
def event62 : EventM :=
  { live := false, has_subevents := false, date_from := -62 * 86400,
    date_to := some (-62 * 86400), subevents := [] }

/-- A not-live single-period event that ended exactly 52 days ago. -/
def event52 : EventM :=
  { live := false, has_subevents := false, date_from := -52 * 86400,
    date_to := some (-52 * 86400), subevents := [] }

/-- A not-live event with a single sub-period that ended 62 days ago. -/
def eventSubOld : EventM :=
  { live := false, has_subevents := true, date_from := 0, date_to := Option.none,
    subevents := [{ date_from := -62 * 86400, date_to := some (-62 * 86400) }] }

/-- A not-live event with one sub-period 62 days over and one only 52 days
over (inside the 60-day window). -/
def eventSubMixed : EventM :=
  { live := false, has_subevents := true, date_from := 0, date_to := Option.none,
    subevents := [{ date_from := -62 * 86400, date_to := some (-62 * 86400) },
                  { date_from := -62 * 86400, date_to := some (-52 * 86400) }] }

/-- Log payload of an expired-email notice (recipient, message, subject). -/
def emailLog1 : JSON :=
  .obj [("recipient", .str "dummy@dummy.test"),
        ("message", .str "Hello Peter@,"),
        ("subject", .str "Foo")]

/-- Log payload of a contact-change action (old and new email). -/
def emailLog2 : JSON :=
  .obj [("old_email", .str "dummy@dummy.test"), ("new_email", .str "foo@bar.com")]

/-- The email-shredder scenario: order `FOO` with email `dummy@dummy.test`,
one position with attendee email `foo@example.org`, two email-bearing log
entries. -/
def emailDB : EventDB :=
  { emptyDB with
    orders := [{ code := "FOO", email := some "dummy@dummy.test",
                 payment_info := Option.none }],
    positions := [{ orderCode := "FOO", positionid := 1,
                    attendee_name := some "Peter",
                    attendee_email := some "foo@example.org" }],
    logEntries := [emailLog1, emailLog2] }

/-- An order-modified log payload carrying an `invoice_data` mapping. -/
def invoiceLog : JSON :=
  .obj [("data", .arr [.obj [("attendee_name", .str "Hans"), ("question_1", .str "Test")]]),
        ("invoice_data", .obj [("name", .str "Peter"), ("country", .str "DE"),
          ("is_business", .bool false), ("internal_reference", .str ""),
          ("company", .str "ACME"), ("street", .str "Sesam Street"),
          ("city", .str "Sample City"), ("zipcode", .str "12345")])]

/-- `invoiceLog` after the invoice-address shred: every non-boolean,
non-empty `invoice_data` value is the marker; `is_business` and the empty
`internal_reference` survive, as does everything outside `invoice_data`. -/
def invoiceLogShredded : JSON :=
  .obj [("data", .arr [.obj [("attendee_name", .str "Hans"), ("question_1", .str "Test")]]),
        ("invoice_data", .obj [("name", .str redactMarker), ("country", .str redactMarker),
          ("is_business", .bool false), ("internal_reference", .str ""),
          ("company", .str redactMarker), ("street", .str redactMarker),
          ("city", .str redactMarker), ("zipcode", .str redactMarker)])]

/-- The invoice-address scenario: one address record for order `FOO` and the
`invoiceLog` entry. -/
def invoiceAddrDB : EventDB :=
  { emptyDB with
    addresses := [{ orderCode := "FOO",
                    addr := .obj [("company", .str "Acme Company"),
                                  ("street", .str "221B Baker Street"),
                                  ("zipcode", .str "12345"), ("city", .str "London"),
                                  ("country", .str "UK")] }],
    logEntries := [invoiceLog] }

/-- An order-modified log payload whose row holds a `question_1` answer given
as a list of option references. -/
def questionLog : JSON :=
  .obj [("data", .arr [.obj [("attendee_name", .str "Hans"),
        ("question_1", .arr [.obj [("id", .num 1), ("type", .str "QuestionOption")]])]])]

/-- `questionLog` after the question-answer shred: the entire `question_1`
value became the marker, `attendee_name` survived. -/
def questionLogShredded : JSON :=
  .obj [("data", .arr [.obj [("attendee_name", .str "Hans"),
        ("question_1", .str redactMarker)]])]

/-- The scenario's question answer: answer `S` with an owned stored file. -/
def qAnswer : AnswerRec :=
  { posKey := "FOO-1", question := 1, answer := "S", questionIdent := "ABC",
    options := [1], optionIdents := ["LVETRWVU"], file := some "foo.pdf" }

/-- The question-answer scenario: one answer with an owned stored file and
the `questionLog` entry. -/
def questionDB : EventDB :=
  { emptyDB with
    answers := [qAnswer],
    storedFiles := ["foo.pdf", "other.pdf"],
    logEntries := [questionLog] }

/-- The voucher sent for the waiting-list scenario entry: its comment and its
own log history carry the entry's email. -/
def wlVoucher : VoucherRec :=
  { pk := 7, comment := "The voucher was sent to foo@example.org",
    logEntries := [.obj [("email", .str "foo@example.org"), ("voucher", .num 7)]] }

/-- The waiting-list scenario entry. -/
def wlEntry : WLEntryRec :=
  { pk := 1, item := 2, variation := Option.none, subevent := Option.none,
    voucher := some wlVoucher, created := "2018-05-01T00:00:00Z", locale := "en",
    email := some "foo@example.org" }

/-- The waiting-list scenario state. -/
def wlDB : EventDB := { emptyDB with waitingList := [wlEntry] }

/-- A valid questions form whose cleaned data holds an empty attendee email
and an empty name-parts dict. -/
def w9Form : Form :=
  { valid := true,
    cleaned_data := [("attendee_email", .str ""), ("attendee_name_parts", .nameParts [])],
    fields := [],
    pos := { attendee_name_parts := some (.nameParts [("full_name", "Peter")]),
             attendee_email := some (.str "peter@example.org"),
             answers := [], meta_info := "\x7b\x7d" },
    meta_info_data := .obj [] }

/-- An invalid questions form with pending cleaned data that must not be
applied. -/
def w10Form : Form :=
  { valid := false,
    cleaned_data := [("attendee_email", .str "x@example.org")],
    fields := [],
    pos := { attendee_name_parts := Option.none, attendee_email := Option.none,
             answers := [], meta_info := "" },
    meta_info_data := .obj [("a", .num 1)] }

/-! ## Helper lemmas -/

theorem getField_setField_self (fs : List (String × JSON)) (k : String) (v : JSON) :
    getField (setField fs k v) k = some v := by
  induction fs with
  | nil => simp [setField, getField]
  | cons p fs ih =>
      obtain ⟨k', v'⟩ := p
      by_cases h : k' = k
      · simp [setField, getField, h]
      · simp [setField, getField, h, ih]

theorem getField_setField_other {k' k : String} (h : k' ≠ k)
    (fs : List (String × JSON)) (v' : JSON) :
    getField (setField fs k' v') k = getField fs k := by
  induction fs with
  | nil => simp [setField, getField, h]
  | cons p fs ih =>
      obtain ⟨k0, v0⟩ := p
      by_cases h0 : k0 = k'
      · subst h0; simp [setField, getField, h]
      · by_cases h1 : k0 = k <;> simp [setField, getField, h0, h1, ih, Ne.symm h]

theorem setField_of_getField {fs : List (String × JSON)} {k : String} {v : JSON}
    (h : getField fs k = some v) : setField fs k v = fs := by
  induction fs with
  | nil => simp [getField] at h
  | cons p fs ih =>
      obtain ⟨k0, v0⟩ := p
      by_cases h0 : k0 = k
      · subst h0
        simp [getField] at h
        simp [setField, h]
      · simp [getField, h0] at h
        simp [setField, h0, ih h]

theorem shredPaymentInfo_idem (j : JSON) :
    PaymentInfoShredder.shredPaymentInfo (PaymentInfoShredder.shredPaymentInfo j)
      = PaymentInfoShredder.shredPaymentInfo j := by
  cases j with
  | obj fs =>
      simp only [PaymentInfoShredder.shredPaymentInfo]
      have hsh : getField (setField (setField (setField fs "reference" (.str redactMarker))
          "payer" (.str redactMarker)) "_shredded" (.bool true)) "_shredded"
          = some (.bool true) := getField_setField_self ..
      have hpy : getField (setField (setField (setField fs "reference" (.str redactMarker))
          "payer" (.str redactMarker)) "_shredded" (.bool true)) "payer"
          = some (.str redactMarker) := by
        rw [getField_setField_other (by decide), getField_setField_self]
      have href : getField (setField (setField (setField fs "reference" (.str redactMarker))
          "payer" (.str redactMarker)) "_shredded" (.bool true)) "reference"
          = some (.str redactMarker) := by
        rw [getField_setField_other (by decide), getField_setField_other (by decide),
          getField_setField_self]
      rw [setField_of_getField href, setField_of_getField hpy, setField_of_getField hsh]
  | null => rfl
  | bool b => rfl
  | num n => rfl
  | str s => rfl
  | arr xs => rfl

theorem map_idem_of_idem {α : Type} (f : α → α) (h : ∀ x, f (f x) = f x) (l : List α) :
    (l.map f).map f = l.map f := by
  rw [List.map_map]
  exact List.map_congr_left (fun x _ => h x)

mutual
theorem emailShredLog_idem : ∀ j, EmailAddressShredder.shredLog
    (EmailAddressShredder.shredLog j) = EmailAddressShredder.shredLog j
  | .null => rfl
  | .bool _ => rfl
  | .num _ => rfl
  | .str s => by
      simp only [EmailAddressShredder.shredLog]
      split
      · simp [EmailAddressShredder.shredLog, redactMarker]
      · simp_all [EmailAddressShredder.shredLog]
  | .arr xs => by simp only [EmailAddressShredder.shredLog, emailShredLogArr_idem xs]
  | .obj fs => by simp only [EmailAddressShredder.shredLog, emailShredLogObj_idem fs]
theorem emailShredLogArr_idem : ∀ xs, EmailAddressShredder.shredLogArr
    (EmailAddressShredder.shredLogArr xs) = EmailAddressShredder.shredLogArr xs
  | [] => rfl
  | x :: xs => by
      simp only [EmailAddressShredder.shredLogArr, emailShredLog_idem x, emailShredLogArr_idem xs]
theorem emailShredLogObj_idem : ∀ fs, EmailAddressShredder.shredLogObj
    (EmailAddressShredder.shredLogObj fs) = EmailAddressShredder.shredLogObj fs
  | [] => rfl
  | (k, v) :: fs => by
      simp only [EmailAddressShredder.shredLogObj, emailShredLog_idem v, emailShredLogObj_idem fs]
end

mutual
theorem nameShredLog_idem : ∀ j, AttendeeNameShredder.shredLog
    (AttendeeNameShredder.shredLog j) = AttendeeNameShredder.shredLog j
  | .null => rfl
  | .bool _ => rfl
  | .num _ => rfl
  | .str _ => rfl
  | .arr xs => by simp only [AttendeeNameShredder.shredLog, nameShredLogArr_idem xs]
  | .obj fs => by simp only [AttendeeNameShredder.shredLog, nameShredLogObj_idem fs]
theorem nameShredLogArr_idem : ∀ xs, AttendeeNameShredder.shredLogArr
    (AttendeeNameShredder.shredLogArr xs) = AttendeeNameShredder.shredLogArr xs
  | [] => rfl
  | x :: xs => by
      simp only [AttendeeNameShredder.shredLogArr, nameShredLog_idem x, nameShredLogArr_idem xs]
theorem nameShredLogObj_idem : ∀ fs, AttendeeNameShredder.shredLogObj
    (AttendeeNameShredder.shredLogObj fs) = AttendeeNameShredder.shredLogObj fs
  | [] => rfl
  | (k, v) :: fs => by
      by_cases h : k = "attendee_name"
      · subst h
        simp [AttendeeNameShredder.shredLogObj, nameShredLogObj_idem fs]
      · simp [AttendeeNameShredder.shredLogObj, h, nameShredLog_idem v,
          nameShredLogObj_idem fs]
end

theorem redactValue_idem (v : JSON) :
    InvoiceAddressShredder.redactValue (InvoiceAddressShredder.redactValue v)
      = InvoiceAddressShredder.redactValue v := by
  cases v with
  | null => rfl
  | bool b => rfl
  | num n =>
      by_cases h : (n != 0) = true
      · simp [InvoiceAddressShredder.redactValue, truthy, h, redactMarker]
      · simp only [Bool.not_eq_true] at h
        simp [InvoiceAddressShredder.redactValue, truthy, h]
  | str s =>
      by_cases h : (s == "") = true
      · simp [InvoiceAddressShredder.redactValue, truthy, h]
      · simp only [Bool.not_eq_true] at h
        simp [InvoiceAddressShredder.redactValue, truthy, h, redactMarker]
  | arr xs =>
      by_cases h : xs.isEmpty = true
      · simp [InvoiceAddressShredder.redactValue, truthy, h]
      · simp only [Bool.not_eq_true] at h
        simp [InvoiceAddressShredder.redactValue, truthy, h, redactMarker]
  | obj fs =>
      by_cases h : fs.isEmpty = true
      · simp [InvoiceAddressShredder.redactValue, truthy, h]
      · simp only [Bool.not_eq_true] at h
        simp [InvoiceAddressShredder.redactValue, truthy, h, redactMarker]

theorem redactAddressFields_idem (fs : List (String × JSON)) :
    InvoiceAddressShredder.redactAddressObj.redactAddressFields
      (InvoiceAddressShredder.redactAddressObj.redactAddressFields fs)
      = InvoiceAddressShredder.redactAddressObj.redactAddressFields fs := by
  induction fs with
  | nil => rfl
  | cons p fs ih =>
      obtain ⟨k, v⟩ := p
      simp only [InvoiceAddressShredder.redactAddressObj.redactAddressFields,
        redactValue_idem v, ih]

theorem redactAddressObj_idem (v : JSON) :
    InvoiceAddressShredder.redactAddressObj (InvoiceAddressShredder.redactAddressObj v)
      = InvoiceAddressShredder.redactAddressObj v := by
  cases v with
  | obj fs => simp only [InvoiceAddressShredder.redactAddressObj, redactAddressFields_idem fs]
  | null => rfl
  | bool b => rfl
  | num n => rfl
  | str s => rfl
  | arr xs => rfl

mutual
theorem iaShredLog_idem : ∀ j, InvoiceAddressShredder.shredLog
    (InvoiceAddressShredder.shredLog j) = InvoiceAddressShredder.shredLog j
  | .null => rfl
  | .bool _ => rfl
  | .num _ => rfl
  | .str _ => rfl
  | .arr xs => by simp only [InvoiceAddressShredder.shredLog, iaShredLogArr_idem xs]
  | .obj fs => by simp only [InvoiceAddressShredder.shredLog, iaShredLogObj_idem fs]
theorem iaShredLogArr_idem : ∀ xs, InvoiceAddressShredder.shredLogArr
    (InvoiceAddressShredder.shredLogArr xs) = InvoiceAddressShredder.shredLogArr xs
  | [] => rfl
  | x :: xs => by
      simp only [InvoiceAddressShredder.shredLogArr, iaShredLog_idem x, iaShredLogArr_idem xs]
theorem iaShredLogObj_idem : ∀ fs, InvoiceAddressShredder.shredLogObj
    (InvoiceAddressShredder.shredLogObj fs) = InvoiceAddressShredder.shredLogObj fs
  | [] => rfl
  | (k, v) :: fs => by
      by_cases h : k = "invoice_data"
      · subst h
        simp [InvoiceAddressShredder.shredLogObj, redactAddressObj_idem v,
          iaShredLogObj_idem fs]
      · simp [InvoiceAddressShredder.shredLogObj, h, iaShredLog_idem v,
          iaShredLogObj_idem fs]
end

mutual
theorem qaShredLog_idem : ∀ j, QuestionAnswerShredder.shredLog
    (QuestionAnswerShredder.shredLog j) = QuestionAnswerShredder.shredLog j
  | .null => rfl
  | .bool _ => rfl
  | .num _ => rfl
  | .str _ => rfl
  | .arr xs => by simp only [QuestionAnswerShredder.shredLog, qaShredLogArr_idem xs]
  | .obj fs => by simp only [QuestionAnswerShredder.shredLog, qaShredLogObj_idem fs]
theorem qaShredLogArr_idem : ∀ xs, QuestionAnswerShredder.shredLogArr
    (QuestionAnswerShredder.shredLogArr xs) = QuestionAnswerShredder.shredLogArr xs
  | [] => rfl
  | x :: xs => by
      simp only [QuestionAnswerShredder.shredLogArr, qaShredLog_idem x, qaShredLogArr_idem xs]
theorem qaShredLogObj_idem : ∀ fs, QuestionAnswerShredder.shredLogObj
    (QuestionAnswerShredder.shredLogObj fs) = QuestionAnswerShredder.shredLogObj fs
  | [] => rfl
  | (k, v) :: fs => by
      by_cases h : QuestionAnswerShredder.isQuestionKey k = true
      · simp [QuestionAnswerShredder.shredLogObj, h, qaShredLogObj_idem fs]
      · simp [QuestionAnswerShredder.shredLogObj, h, qaShredLog_idem v,
          qaShredLogObj_idem fs]
end

theorem mem_of_charsContain {needle s : List Char} (h : charsContain needle s = true) :
    ∀ c ∈ needle, c ∈ s := by
  induction s with
  | nil =>
      simp only [charsContain, List.isEmpty_iff] at h
      subst h
      intro c hc
      cases hc
  | cons a rest ih =>
      intro c hc
      simp only [charsContain, Bool.or_eq_true] at h
      rcases h with h | h
      · exact (List.isPrefixOf_iff_prefix.mp h).sublist.subset hc
      · exact List.mem_cons_of_mem a (ih h c hc)

theorem charsContain_marker_false {needle : List Char} (h : '@' ∈ needle) :
    charsContain needle redactMarker.toList = false := by
  by_contra hc
  simp only [Bool.not_eq_false] at hc
  have := mem_of_charsContain hc '@' h
  revert this
  decide

theorem strContainsStr_of_no_at {s needle : String} (hn : '@' ∈ needle.toList)
    (hs : s.toList.contains '@' = false) : strContainsStr s needle = false := by
  by_contra hc
  simp only [Bool.not_eq_false] at hc
  have h2 : s.toList.contains '@' = true :=
    List.elem_iff.mpr (mem_of_charsContain hc '@' hn)
  rw [hs] at h2
  exact Bool.false_ne_true h2

mutual
theorem emailShredLog_no_needle (needle : String) (hn : '@' ∈ needle.toList) :
    ∀ j, jsonValueContains needle (EmailAddressShredder.shredLog j) = false
  | .null => rfl
  | .bool _ => rfl
  | .num _ => rfl
  | .str s => by
      simp only [EmailAddressShredder.shredLog]
      by_cases h : s.toList.contains '@' = true
      · rw [if_pos h]
        simp only [jsonValueContains, strContainsStr]
        exact charsContain_marker_false hn
      · simp only [Bool.not_eq_true] at h
        rw [if_neg (fun hh => Bool.false_ne_true (h ▸ hh))]
        simp only [jsonValueContains]
        exact strContainsStr_of_no_at hn h
  | .arr xs => by
      simp only [EmailAddressShredder.shredLog, jsonValueContains]
      exact emailShredLogArr_no_needle needle hn xs
  | .obj fs => by
      simp only [EmailAddressShredder.shredLog, jsonValueContains]
      exact emailShredLogObj_no_needle needle hn fs
theorem emailShredLogArr_no_needle (needle : String) (hn : '@' ∈ needle.toList) :
    ∀ xs, jsonValueContainsArr needle (EmailAddressShredder.shredLogArr xs) = false
  | [] => rfl
  | x :: xs => by
      simp only [EmailAddressShredder.shredLogArr, jsonValueContainsArr,
        emailShredLog_no_needle needle hn x, emailShredLogArr_no_needle needle hn xs,
        Bool.or_self]
theorem emailShredLogObj_no_needle (needle : String) (hn : '@' ∈ needle.toList) :
    ∀ fs, jsonValueContainsObj needle (EmailAddressShredder.shredLogObj fs) = false
  | [] => rfl
  | (k, v) :: fs => by
      simp only [EmailAddressShredder.shredLogObj, jsonValueContainsObj,
        emailShredLog_no_needle needle hn v, emailShredLogObj_no_needle needle hn fs,
        Bool.or_self]
end

theorem optionMap_idem {α : Type} (f : α → α) (h : ∀ x, f (f x) = f x) (o : Option α) :
    (o.map f).map f = o.map f := by
  cases o <;> simp [h]

/-! ## The claims -/

/-- Claim C1: `shred_constraints` returns a non-null blocking value unless the
event is marked not-live or its relevant end timestamp (and, with sub-periods,
every sub-period's end) is more than 60 days in the past; in particular a live
event is blocked, a not-live single-period event 62 days over is not blocked,
one exactly 52 days over is blocked, and one sub-period inside the 60-day
window blocks a multi-sub-period event even if another is outside it. -/
theorem C1_shred_constraints_gate :
    (∀ (now : Int) (e : EventM), e.live = true → shred_constraints now e ≠ Option.none)
    ∧ (∀ (now : Int) (e : EventM),
        ¬(e.live = false ∨ ∀ d ∈ relevantEnds e, d < now - sixtyDays) →
        shred_constraints now e ≠ Option.none)
    ∧ shred_constraints 0 eventLiveOld ≠ Option.none
    ∧ shred_constraints 0 event62 = Option.none
    ∧ shred_constraints 0 event52 ≠ Option.none
    ∧ shred_constraints 0 eventSubOld = Option.none
    ∧ shred_constraints 0 eventSubMixed ≠ Option.none := by
  have hlive : ∀ (now : Int) (e : EventM), e.live = true →
      shred_constraints now e ≠ Option.none := by
    intro now e h
    unfold shred_constraints
    split
    · exact fun hh => Option.noConfusion hh
    · simp [h]
  refine ⟨hlive, ?_, hlive 0 eventLiveOld rfl, by decide, by decide, by decide, by decide⟩
  intro now e h
  rcases Bool.eq_false_or_eq_true e.live with ht | hf
  · exact hlive now e ht
  · exact absurd (Or.inl hf) h

/-- Claim C1 witness: the gate applied at the concrete live event. -/
theorem C1_shred_constraints_gate_witness :
    shred_constraints 0 eventLiveOld ≠ Option.none :=
  C1_shred_constraints_gate.1 0 eventLiveOld rfl

/-- Claim C2: shredding a payment-info mapping of the shape
`{reference, date, payer, trans_id}` replaces `reference` and `payer` by the
marker, keeps `date` and `trans_id`, appends `_shredded: true`, and repeated
invocations change nothing further (so the marker is added exactly once);
`shred_data` applies this to every order's stored payment info. -/
theorem C2_payment_info_shredder (r d p : String) (n : Int) :
    PaymentInfoShredder.shredPaymentInfo
        (.obj [("reference", .str r), ("date", .str d), ("payer", .str p),
               ("trans_id", .num n)])
      = .obj [("reference", .str redactMarker), ("date", .str d),
              ("payer", .str redactMarker), ("trans_id", .num n),
              ("_shredded", .bool true)]
    ∧ (∀ j, PaymentInfoShredder.shredPaymentInfo (PaymentInfoShredder.shredPaymentInfo j)
        = PaymentInfoShredder.shredPaymentInfo j)
    ∧ (∀ db, (PaymentInfoShredder.shred_data db).orders
        = db.orders.map (fun o => { o with payment_info := o.payment_info.map PaymentInfoShredder.shredPaymentInfo }))
    ∧ (∀ db, PaymentInfoShredder.shred_data (PaymentInfoShredder.shred_data db)
        = PaymentInfoShredder.shred_data db) := by
  refine ⟨?_, shredPaymentInfo_idem, fun db => rfl, ?_⟩
  · simp [PaymentInfoShredder.shredPaymentInfo, setField]
  · intro db
    simp only [PaymentInfoShredder.shred_data, List.map_map]
    congr 1
    refine List.map_congr_left (fun o _ => ?_)
    simp only [Function.comp]
    congr 1
    exact optionMap_idem _ shredPaymentInfo_idem o.payment_info

/-- Claim C3: after `InvoiceAddressShredder.shred_data` no Invoice Address
record exists any more; every log entry is rewritten so that under an
`invoice_data` key every non-boolean, non-empty field value becomes the
redaction marker while booleans and empty strings stay untouched — shown both
field-wise and on the concrete scenario payload. -/
theorem C3_invoice_address_shredder (db : EventDB) :
    (InvoiceAddressShredder.shred_data db).addresses = []
    ∧ (InvoiceAddressShredder.shred_data db).logEntries
        = db.logEntries.map InvoiceAddressShredder.shredLog
    ∧ (∀ b, InvoiceAddressShredder.redactValue (.bool b) = .bool b)
    ∧ InvoiceAddressShredder.redactValue (.str "") = .str ""
    ∧ (∀ v, (∀ b, v ≠ JSON.bool b) → truthy v = true →
        InvoiceAddressShredder.redactValue v = .str redactMarker)
    ∧ InvoiceAddressShredder.shredLog invoiceLog = invoiceLogShredded := by
  refine ⟨rfl, rfl, fun b => rfl, rfl, ?_, rfl⟩
  intro v hb ht
  cases v with
  | bool b => exact absurd rfl (hb b)
  | null => exact absurd ht (by simp [truthy])
  | num n => simp [InvoiceAddressShredder.redactValue, ht]
  | str s => simp [InvoiceAddressShredder.redactValue, ht]
  | arr xs => simp [InvoiceAddressShredder.redactValue, ht]
  | obj fs => simp [InvoiceAddressShredder.redactValue, ht]

/-- Claim C3 witness: the invoice-address shred applied to the concrete
scenario state, with the field-wise marker rule instantiated at `"ACME"`. -/
theorem C3_invoice_address_shredder_witness :
    (InvoiceAddressShredder.shred_data invoiceAddrDB).addresses = []
    ∧ InvoiceAddressShredder.redactValue (.str "ACME") = .str redactMarker := by
  obtain ⟨h1, _, _, _, h5, _⟩ := C3_invoice_address_shredder invoiceAddrDB
  exact ⟨h1, h5 (.str "ACME") (fun b hb => JSON.noConfusion hb) rfl⟩

/-- Claim C4: on the concrete email scenario (order `FOO`, email
`dummy@dummy.test`, one position with attendee email `foo@example.org`),
export file 0 decodes to `{"FOO": "dummy@dummy.test"}` and file 1 to
`{"FOO-1": "foo@example.org"}`; after `shred_data` the order email and the
attendee email are null and no log entry payload contains an `@` any more. -/
theorem C4_email_shredder_scenario :
    EmailAddressShredder.generate_files emailDB
      = some [("emails-by-order.json", "application/json",
                .obj [("FOO", .str "dummy@dummy.test")]),
              ("emails-by-attendee.json", "application/json",
                .obj [("FOO-1", .str "foo@example.org")])]
    ∧ ((EmailAddressShredder.shred_data emailDB).orders.all
        (fun o => o.email.isNone)) = true
    ∧ ((EmailAddressShredder.shred_data emailDB).positions.all
        (fun p => p.attendee_email.isNone)) = true
    ∧ ((EmailAddressShredder.shred_data emailDB).logEntries.all
        (fun e => !(jsonHasChar '@' e))) = true :=
  ⟨rfl, rfl, rfl, rfl⟩

/-- Claim C5: `QuestionAnswerShredder.shred_data` removes every answer's
owned file from storage, deletes every Question Answer record, and in log
payloads replaces the entire value under any `question_<id>` key by the
marker while sibling keys such as `attendee_name` survive (shown on the
scenario payload whose answer value is a list of option references). -/
theorem C5_question_answer_shredder (db : EventDB) (a : AnswerRec) (f : String)
    (ha : a ∈ db.answers) (hf : a.file = some f) :
    f ∉ (QuestionAnswerShredder.shred_data db).storedFiles
    ∧ (QuestionAnswerShredder.shred_data db).answers = []
    ∧ (QuestionAnswerShredder.shred_data db).logEntries
        = db.logEntries.map QuestionAnswerShredder.shredLog
    ∧ (∀ (k : String) (v : JSON) (fs : List (String × JSON)),
        QuestionAnswerShredder.isQuestionKey k = true →
        QuestionAnswerShredder.shredLogObj ((k, v) :: fs)
          = (k, .str redactMarker) :: QuestionAnswerShredder.shredLogObj fs)
    ∧ QuestionAnswerShredder.shredLog questionLog = questionLogShredded
    ∧ QuestionAnswerShredder.isQuestionKey "attendee_name" = false := by
  refine ⟨?_, rfl, rfl, ?_, rfl, rfl⟩
  · intro hmem
    have hpred := (List.mem_filter.mp hmem).2
    have hany : db.answers.any (fun x => x.file == some f) = true :=
      List.any_eq_true.mpr ⟨a, ha, by simp [hf]⟩
    rw [hany] at hpred
    exact Bool.false_ne_true hpred
  · intro k v fs hk
    simp [QuestionAnswerShredder.shredLogObj, hk]

/-- Claim C5 witness: the question-answer shred applied to the concrete
scenario: the owned file is gone from storage and the record set is empty. -/
theorem C5_question_answer_shredder_witness :
    "foo.pdf" ∉ (QuestionAnswerShredder.shred_data questionDB).storedFiles
    ∧ (QuestionAnswerShredder.shred_data questionDB).answers = [] := by
  obtain ⟨h1, h2, _, _, _, _⟩ :=
    C5_question_answer_shredder questionDB qAnswer "foo.pdf"
      (List.mem_singleton.mpr rfl) rfl
  exact ⟨h1, h2⟩

/-- Claim C6: the waiting-list export is a top-level sequence of entry structs
(id, item, variation, sub-period, voucher id, created, locale, email) — the
only export whose top level is not a mapping — and after `shred_data` the
entry's email is nulled while the voucher's comment and the voucher's own log
history no longer contain the email. -/
theorem C6_waitinglist_shredder (db : EventDB) (w : WLEntryRec) (v : VoucherRec)
    (em : String) (hv : w.voucher = some v) (hat : '@' ∈ em.toList) :
    WaitingListShredder.generate_files db
      = some [("waiting-list.json", "application/json",
                .arr (db.waitingList.map WaitingListShredder.entryJSON))]
    ∧ (JSON.arr (db.waitingList.map WaitingListShredder.entryJSON)).isArr = true
    ∧ WaitingListShredder.generate_files wlDB
      = some [("waiting-list.json", "application/json",
                .arr [.obj [("id", .num 1), ("item", .num 2), ("variation", .null),
                            ("subevent", .null), ("voucher", .num 7),
                            ("created", .str "2018-05-01T00:00:00Z"),
                            ("locale", .str "en"),
                            ("email", .str "foo@example.org")]])]
    ∧ (∀ db2, ∀ x ∈ (EmailAddressShredder.generate_files db2).getD [], (x.2.2).isObj = true)
    ∧ (∀ db2, ∀ x ∈ (AttendeeNameShredder.generate_files db2).getD [], (x.2.2).isObj = true)
    ∧ (∀ db2, ∀ x ∈ (InvoiceAddressShredder.generate_files db2).getD [], (x.2.2).isObj = true)
    ∧ (∀ db2, ∀ x ∈ (QuestionAnswerShredder.generate_files db2).getD [], (x.2.2).isObj = true)
    ∧ (∀ db2, ∀ x ∈ (InvoiceShredder.generate_files db2).getD [], (x.2.2).isObj = true)
    ∧ (WaitingListShredder.shred_data db).waitingList
        = db.waitingList.map WaitingListShredder.shredEntry
    ∧ (WaitingListShredder.shredEntry w).email = Option.none
    ∧ (WaitingListShredder.shredEntry w).voucher
        = some (WaitingListShredder.shredVoucher v)
    ∧ strContainsStr (WaitingListShredder.shredVoucher v).comment em = false
    ∧ (∀ le ∈ (WaitingListShredder.shredVoucher v).logEntries,
        jsonValueContains em le = false) := by
  refine ⟨rfl, rfl, rfl, ?_, ?_, ?_, ?_, ?_, rfl, rfl, ?_, ?_, ?_⟩
  · intro db2 x hx
    simp only [EmailAddressShredder.generate_files, Option.getD_some, List.mem_cons,
      List.mem_nil_iff, or_false] at hx
    rcases hx with rfl | rfl <;> rfl
  · intro db2 x hx
    simp only [AttendeeNameShredder.generate_files, Option.getD_some, List.mem_cons,
      List.mem_nil_iff, or_false] at hx
    rcases hx with rfl
    rfl
  · intro db2 x hx
    simp only [InvoiceAddressShredder.generate_files, Option.getD_some, List.mem_cons,
      List.mem_nil_iff, or_false] at hx
    rcases hx with rfl
    rfl
  · intro db2 x hx
    simp only [QuestionAnswerShredder.generate_files, Option.getD_some, List.mem_cons,
      List.mem_nil_iff, or_false] at hx
    rcases hx with rfl
    rfl
  · intro db2 x hx
    simp only [InvoiceShredder.generate_files, Option.getD_some, List.mem_cons,
      List.mem_nil_iff, or_false] at hx
    rcases hx with rfl
    rfl
  · simp [WaitingListShredder.shredEntry, hv]
  · simp only [WaitingListShredder.shredVoucher, strContainsStr]
    exact charsContain_marker_false hat
  · intro le hle
    simp only [WaitingListShredder.shredVoucher] at hle
    rcases List.mem_map.mp hle with ⟨x, _, hx⟩
    rw [← hx]
    exact emailShredLog_no_needle em hat x

/-- Claim C6 witness: the waiting-list shred applied to the concrete scenario
entry whose voucher comment and log history carried `foo@example.org`. -/
theorem C6_waitinglist_shredder_witness :
    strContainsStr (WaitingListShredder.shredVoucher wlVoucher).comment "foo@example.org" = false
    ∧ (WaitingListShredder.shredEntry wlEntry).email = Option.none := by
  obtain ⟨_, _, _, _, _, _, _, _, _, h10, _, h12, _⟩ :=
    C6_waitinglist_shredder wlDB wlEntry wlVoucher "foo@example.org" rfl (by decide)
  exact ⟨h12, h10⟩

theorem filter_map_false {α β : Type} (f : α → β) (p : β → Bool) (l : List α)
    (h : ∀ x, p (f x) = false) : (l.map f).filter p = [] := by
  induction l with
  | nil => rfl
  | cons a l ih => simp [h, ih]

theorem filter_all_true {α : Type} (p : α → Bool) (l : List α)
    (h : ∀ x, p x = true) : l.filter p = l :=
  List.filter_eq_self.mpr (fun a _ => h a)

theorem invoiceShred_idem (i : InvoiceRec) :
    InvoiceShredder.shredInvoice (InvoiceShredder.shredInvoice i)
      = InvoiceShredder.shredInvoice i := by
  simp [InvoiceShredder.shredInvoice, List.map_map]

theorem wlShredVoucher_idem (v : VoucherRec) :
    WaitingListShredder.shredVoucher (WaitingListShredder.shredVoucher v)
      = WaitingListShredder.shredVoucher v := by
  simp only [WaitingListShredder.shredVoucher,
    map_idem_of_idem _ emailShredLog_idem]

theorem wlShredEntry_idem (w : WLEntryRec) :
    WaitingListShredder.shredEntry (WaitingListShredder.shredEntry w)
      = WaitingListShredder.shredEntry w := by
  simp only [WaitingListShredder.shredEntry,
    optionMap_idem _ wlShredVoucher_idem]

/-- Claim C7: for every shredder category and every event state, shredding
twice leaves exactly the end state of shredding once (records, fields, stored
files and log payloads), and exporting after shredding reflects the destroyed
state: the email, attendee-name, invoice-address and question-answer exports
become empty mappings, the invoice export is unchanged (existence markers
only), the cache and payment categories still export nothing, and the
waiting-list export now carries a null email in every entry struct; all
operations are total, so no call can error. -/
theorem C7_shred_data_idempotent (db : EventDB) :
    EmailAddressShredder.shred_data (EmailAddressShredder.shred_data db)
      = EmailAddressShredder.shred_data db
    ∧ AttendeeNameShredder.shred_data (AttendeeNameShredder.shred_data db)
      = AttendeeNameShredder.shred_data db
    ∧ InvoiceAddressShredder.shred_data (InvoiceAddressShredder.shred_data db)
      = InvoiceAddressShredder.shred_data db
    ∧ QuestionAnswerShredder.shred_data (QuestionAnswerShredder.shred_data db)
      = QuestionAnswerShredder.shred_data db
    ∧ InvoiceShredder.shred_data (InvoiceShredder.shred_data db)
      = InvoiceShredder.shred_data db
    ∧ CachedTicketShredder.shred_data (CachedTicketShredder.shred_data db)
      = CachedTicketShredder.shred_data db
    ∧ PaymentInfoShredder.shred_data (PaymentInfoShredder.shred_data db)
      = PaymentInfoShredder.shred_data db
    ∧ WaitingListShredder.shred_data (WaitingListShredder.shred_data db)
      = WaitingListShredder.shred_data db
    ∧ EmailAddressShredder.generate_files (EmailAddressShredder.shred_data db)
      = some [("emails-by-order.json", "application/json", .obj []),
              ("emails-by-attendee.json", "application/json", .obj [])]
    ∧ AttendeeNameShredder.generate_files (AttendeeNameShredder.shred_data db)
      = some [("attendee-names.json", "application/json", .obj [])]
    ∧ InvoiceAddressShredder.generate_files (InvoiceAddressShredder.shred_data db)
      = some [("invoice-addresses.json", "application/json", .obj [])]
    ∧ QuestionAnswerShredder.generate_files (QuestionAnswerShredder.shred_data db)
      = some [("question-answers.json", "application/json", .obj [])]
    ∧ InvoiceShredder.generate_files (InvoiceShredder.shred_data db)
      = InvoiceShredder.generate_files db
    ∧ CachedTicketShredder.generate_files (CachedTicketShredder.shred_data db) = Option.none
    ∧ PaymentInfoShredder.generate_files (PaymentInfoShredder.shred_data db) = Option.none
    ∧ WaitingListShredder.generate_files (WaitingListShredder.shred_data db)
      = some [("waiting-list.json", "application/json",
          .arr ((db.waitingList.map WaitingListShredder.shredEntry).map
            WaitingListShredder.entryJSON))]
    ∧ (∀ u : WLEntryRec, WaitingListShredder.entryJSON (WaitingListShredder.shredEntry u)
        = .obj [("id", .num u.pk), ("item", .num u.item),
                ("variation", u.variation.elim .null (fun x => .num x)),
                ("subevent", u.subevent.elim .null (fun x => .num x)),
                ("voucher", (u.voucher.map WaitingListShredder.shredVoucher).elim .null
                  (fun x => .num x.pk)),
                ("created", .str u.created), ("locale", .str u.locale),
                ("email", .null)]) := by
  refine ⟨?_, ?_, ?_, ?_, ?_, ?_, ?_, ?_, ?_, ?_, rfl, rfl, ?_, rfl, rfl, rfl, fun u => rfl⟩
  · simp only [EmailAddressShredder.shred_data,
      map_idem_of_idem (fun (o : OrderRec) => { o with email := Option.none }) (fun o => rfl),
      map_idem_of_idem (fun (p : PositionRec) => { p with attendee_email := Option.none })
        (fun p => rfl),
      map_idem_of_idem _ emailShredLog_idem]
  · simp only [AttendeeNameShredder.shred_data,
      map_idem_of_idem (fun (p : PositionRec) => { p with attendee_name := Option.none })
        (fun p => rfl),
      map_idem_of_idem _ nameShredLog_idem]
  · simp only [InvoiceAddressShredder.shred_data,
      map_idem_of_idem _ iaShredLog_idem]
  · simp only [QuestionAnswerShredder.shred_data,
      map_idem_of_idem _ qaShredLog_idem,
      filter_all_true (fun f => !(List.any ([] : List AnswerRec)
        (fun a => a.file == some f))) _ (fun x => rfl)]
  · simp only [InvoiceShredder.shred_data,
      map_idem_of_idem _ invoiceShred_idem]
    congr 1
    apply filter_all_true
    intro x
    have hany : (db.invoices.map InvoiceShredder.shredInvoice).any
        (fun i => i.file == some x) = false := by
      rw [List.any_eq_false]
      intro i hi
      rcases List.mem_map.mp hi with ⟨y, _, rfl⟩
      simp [InvoiceShredder.shredInvoice]
    rw [hany]
    rfl
  · simp only [CachedTicketShredder.shred_data,
      filter_all_true (fun f => !(List.any ([] : List TicketRec) (fun t => t.file == f))
        && !(List.any ([] : List TicketRec) (fun t => t.file == f))) _ (fun x => rfl)]
  · simp only [PaymentInfoShredder.shred_data, List.map_map]
    congr 1
    refine List.map_congr_left (fun o _ => ?_)
    simp only [Function.comp]
    congr 1
    exact optionMap_idem _ shredPaymentInfo_idem o.payment_info
  · simp only [WaitingListShredder.shred_data,
      map_idem_of_idem _ wlShredEntry_idem]
  · simp only [EmailAddressShredder.generate_files, EmailAddressShredder.shred_data,
      filter_map_false (fun (o : OrderRec) => { o with email := Option.none })
        (fun o => o.email.isSome) _ (fun x => rfl),
      filter_map_false (fun (p : PositionRec) => { p with attendee_email := Option.none })
        (fun p => p.attendee_email.isSome) _ (fun x => rfl),
      List.map_nil]
  · simp only [AttendeeNameShredder.generate_files, AttendeeNameShredder.shred_data,
      filter_map_false (fun (p : PositionRec) => { p with attendee_name := Option.none })
        (fun p => p.attendee_name.isSome) _ (fun x => rfl),
      List.map_nil]
  · simp only [InvoiceShredder.generate_files, InvoiceShredder.shred_data, List.map_map]
    have hmap : db.invoices.map ((fun i => (i.number, JSON.str redactMarker))
          ∘ InvoiceShredder.shredInvoice)
        = db.invoices.map (fun i => (i.number, JSON.str redactMarker)) :=
      List.map_congr_left (fun i _ => rfl)
    rw [hmap]

/-- Claim C8: for every shredder category and every event state, the export
step mutates nothing: run in the state-passing style, `generate_files` of
every category hands on the state it was given, unchanged. -/
theorem C8_generate_files_read_only (db : EventDB) :
    (runGenerate EmailAddressShredder.generate_files db).2 = db
    ∧ (runGenerate AttendeeNameShredder.generate_files db).2 = db
    ∧ (runGenerate InvoiceAddressShredder.generate_files db).2 = db
    ∧ (runGenerate QuestionAnswerShredder.generate_files db).2 = db
    ∧ (runGenerate InvoiceShredder.generate_files db).2 = db
    ∧ (runGenerate CachedTicketShredder.generate_files db).2 = db
    ∧ (runGenerate PaymentInfoShredder.generate_files db).2 = db
    ∧ (runGenerate WaitingListShredder.generate_files db).2 = db :=
  ⟨rfl, rfl, rfl, rfl, rfl, rfl, rfl, rfl⟩

theorem applyItem_email_eq (fields : List (String × FormField)) (acc : Position × JSON)
    (kv : String × PyVal) (h : kv.1 ≠ "attendee_email") :
    ((applyItem fields acc kv).1).attendee_email = acc.1.attendee_email := by
  obtain ⟨k, v⟩ := kv
  simp only at h
  by_cases h1 : k = "attendee_name_parts"
  · simp [applyItem, h1]
  · simp only [applyItem, if_neg h1, if_neg h]
    by_cases h2 : ("question_".toList.isPrefixOf k.toList && !v.isNone) = true
    · rw [if_pos h2]
      cases hf : lookupField fields k with
      | none => rfl
      | some fld =>
          cases hfa : fld.answer with
          | none =>
              by_cases h3 : (!v.isEmptyStr) = true
              · simp [hfa, h3]
              · simp [hfa, h3]
          | some cached =>
              by_cases h3 : (v.isEmptyStr || v.isNone
                  || (fld.kind == FieldKind.file && v.isFalse)) = true
              · simp [hfa, h3]
              · simp [hfa, h3]
    · rw [if_neg (fun hh => h2 hh)]
      by_cases h3 : v.isNone = true
      · simp [h3]
      · simp [h3]

theorem applyItem_name_eq (fields : List (String × FormField)) (acc : Position × JSON)
    (kv : String × PyVal) (h : kv.1 ≠ "attendee_name_parts") :
    ((applyItem fields acc kv).1).attendee_name_parts = acc.1.attendee_name_parts := by
  obtain ⟨k, v⟩ := kv
  simp only at h
  by_cases h1 : k = "attendee_email"
  · simp [applyItem, h, h1]
  · simp only [applyItem, if_neg h, if_neg h1]
    by_cases h2 : ("question_".toList.isPrefixOf k.toList && !v.isNone) = true
    · rw [if_pos h2]
      cases hf : lookupField fields k with
      | none => rfl
      | some fld =>
          cases hfa : fld.answer with
          | none =>
              by_cases h3 : (!v.isEmptyStr) = true
              · simp [hfa, h3]
              · simp [hfa, h3]
          | some cached =>
              by_cases h3 : (v.isEmptyStr || v.isNone
                  || (fld.kind == FieldKind.file && v.isFalse)) = true
              · simp [hfa, h3]
              · simp [hfa, h3]
    · rw [if_neg (fun hh => h2 hh)]
      by_cases h3 : v.isNone = true
      · simp [h3]
      · simp [h3]

theorem foldl_applyItem_email_eq (fields : List (String × FormField))
    (l : List (String × PyVal)) (acc : Position × JSON)
    (h : ∀ kv ∈ l, kv.1 ≠ "attendee_email") :
    ((l.foldl (applyItem fields) acc).1).attendee_email = acc.1.attendee_email := by
  induction l generalizing acc with
  | nil => rfl
  | cons kv l ih =>
      rw [List.foldl_cons, ih _ (fun x hx => h x (List.mem_cons_of_mem kv hx))]
      exact applyItem_email_eq fields acc kv (h kv (List.mem_cons_self kv l))

theorem foldl_applyItem_name_eq (fields : List (String × FormField))
    (l : List (String × PyVal)) (acc : Position × JSON)
    (h : ∀ kv ∈ l, kv.1 ≠ "attendee_name_parts") :
    ((l.foldl (applyItem fields) acc).1).attendee_name_parts = acc.1.attendee_name_parts := by
  induction l generalizing acc with
  | nil => rfl
  | cons kv l ih =>
      rw [List.foldl_cons, ih _ (fun x hx => h x (List.mem_cons_of_mem kv hx))]
      exact applyItem_name_eq fields acc kv (h kv (List.mem_cons_self kv l))

theorem not_any_not_valid (forms : List Form) :
    (!forms.any (fun f => !f.valid)) = forms.all (fun f => f.valid) := by
  induction forms with
  | nil => rfl
  | cons f fs ih => simp [List.any_cons, List.all_cons, ← ih, Bool.not_or]

theorem save_foldl_general (forms : List Form) (b : Bool) (acc : List Position) :
    forms.foldl (fun (acc : Bool × List Position) f =>
        (acc.1 || !f.valid, acc.2 ++ [processForm f])) (b, acc)
      = (b || forms.any (fun f => !f.valid), acc ++ forms.map processForm) := by
  induction forms generalizing b acc with
  | nil => simp
  | cons f fs ih => simp [ih, Bool.or_assoc]

/-- Claim C9: in `BaseQuestionsViewMixin.save`, a valid form's cleaned
`attendee_email` equal to the empty string is persisted as `None`, and an
empty/falsy `attendee_name_parts` value is persisted as `None` — empty inputs
are never stored as empty strings on the position. -/
theorem C9_empty_inputs_become_none (f : Form)
    (hv : f.valid = true)
    (hnd : (f.cleaned_data.map Prod.fst).Nodup) :
    (("attendee_email", PyVal.str "") ∈ f.cleaned_data →
      (processForm f).attendee_email = Option.none)
    ∧ (∀ v : PyVal, ("attendee_name_parts", v) ∈ f.cleaned_data → v.truthy = false →
      (processForm f).attendee_name_parts = Option.none) := by
  constructor
  · intro hmem
    obtain ⟨s, t, hst⟩ := List.append_of_mem hmem
    have hnd' := hnd
    rw [hst, List.map_append] at hnd'
    have hni : "attendee_email" ∉ t.map Prod.fst := by
      have h2 := (List.nodup_append.mp hnd').2.1
      simp only [List.map_cons] at h2
      exact (List.nodup_cons.mp h2).1
    have hkeys : ∀ kv ∈ t, kv.1 ≠ "attendee_email" := by
      intro kv hkv he
      exact hni (he ▸ List.mem_map_of_mem Prod.fst hkv)
    show ((if f.valid then f.cleaned_data.foldl (applyItem f.fields) (f.pos, f.meta_info_data)
        else (f.pos, f.meta_info_data)).1).attendee_email = Option.none
    rw [if_pos hv, hst, List.foldl_append, List.foldl_cons,
      foldl_applyItem_email_eq f.fields t _ hkeys]
    simp [applyItem, PyVal.isEmptyStr]
  · intro v hmem htr
    obtain ⟨s, t, hst⟩ := List.append_of_mem hmem
    have hnd' := hnd
    rw [hst, List.map_append] at hnd'
    have hni : "attendee_name_parts" ∉ t.map Prod.fst := by
      have h2 := (List.nodup_append.mp hnd').2.1
      simp only [List.map_cons] at h2
      exact (List.nodup_cons.mp h2).1
    have hkeys : ∀ kv ∈ t, kv.1 ≠ "attendee_name_parts" := by
      intro kv hkv he
      exact hni (he ▸ List.mem_map_of_mem Prod.fst hkv)
    show ((if f.valid then f.cleaned_data.foldl (applyItem f.fields) (f.pos, f.meta_info_data)
        else (f.pos, f.meta_info_data)).1).attendee_name_parts = Option.none
    rw [if_pos hv, hst, List.foldl_append, List.foldl_cons,
      foldl_applyItem_name_eq f.fields t _ hkeys]
    simp [applyItem, htr]

/-- Claim C9 witness: a concrete valid form with an empty attendee email and
an empty name-parts dict ends with both fields stored as `None`. -/
theorem C9_empty_inputs_become_none_witness :
    (processForm w9Form).attendee_email = Option.none
    ∧ (processForm w9Form).attendee_name_parts = Option.none := by
  obtain ⟨h1, h2⟩ := C9_empty_inputs_become_none w9Form rfl (by decide)
  exact ⟨h1 (by decide), h2 (.nameParts []) (by decide) rfl⟩

/-- Claim C10: `save` returns `True` iff every form validates; an invalid
form does not abort the loop — the result processes every form independently
(so every other valid form's answers are still applied), and every form's
position gets its meta-info serialized and persisted whatever that form's
validity. -/
theorem C10_save_processes_every_form (forms : List Form) :
    (save forms).1 = forms.all (fun f => f.valid)
    ∧ ((save forms).1 = true ↔ ∀ f ∈ forms, f.valid = true)
    ∧ (save forms).2 = forms.map processForm
    ∧ (∀ f : Form, f.valid = false →
        processForm f = { f.pos with meta_info := jsonDump f.meta_info_data })
    ∧ (∀ f : Form, (processForm f).meta_info = jsonDump (processMeta f)) := by
  have hfold := save_foldl_general forms false []
  have h1 : (save forms).1 = forms.all (fun f => f.valid) := by
    unfold save
    rw [hfold]
    simp only [Bool.false_or]
    exact not_any_not_valid forms
  refine ⟨h1, ?_, ?_, ?_, ?_⟩
  · rw [h1]
    exact List.all_eq_true
  · unfold save
    rw [hfold]
    simp
  · intro f hf
    simp [processForm, hf]
  · intro f
    cases hv : f.valid <;> simp [processForm, processMeta, hv]

/-- Claim C10 witness: one concrete invalid form — `save` reports failure,
still emits the processed position, and that position's meta-info is the
serialized parsed payload it started with. -/
theorem C10_save_processes_every_form_witness :
    (save [w10Form]).1 = false
    ∧ (save [w10Form]).2 = [processForm w10Form]
    ∧ processForm w10Form = { w10Form.pos with meta_info := jsonDump w10Form.meta_info_data } := by
  obtain ⟨h1, _, h3, h4, _⟩ := C10_save_processes_every_form [w10Form]
  refine ⟨?_, h3, h4 w10Form rfl⟩
  rw [h1]
  rfl
